import Mathlib

/-!
Verification of a command-line contact manager (`main.py`).

The development shallowly embeds the program's data model and operations:
  * field validators `Name`, `Phone`, `Birthday` (fallible constructors
    become `Except String`-valued functions);
  * `Record` (a contact: name, ordered phone list, optional birthday);
  * `AddressBook` (an insertion-ordered map from names to records,
    modelled as an association list, matching Python dict semantics:
    overwriting a present key keeps its position, a fresh key is appended);
  * the `get_upcoming_birthdays` query with its weekend adjustment;
  * the command handlers `add_contact`, `change_contact`, `birthdays`,
    together with the `input_error` wrapper that turns raised errors into
    user-facing strings.

Dates are modelled by a `Date` structure over `Nat` together with the
proleptic-Gregorian ordinal arithmetic that CPython's `datetime.date` uses
(`toordinal`, `weekday`, date subtraction in days).  The `%d.%m.%Y`
`strptime` format is modelled from CPython's `_strptime` regular
expressions: day matches `3[01]|[12]\d|0[1-9]|[1-9]`, month matches
`1[0-2]|0[1-9]|[1-9]`, year matches exactly four digits, separated by
literal dots, after which `date(year, month, day)` checks that the date is
a real calendar date (`MINYEAR = 1`).  Python 3 compiles these patterns
without `re.ASCII`, so `\d` matches every Unicode decimal digit (category
`Nd`) and the matched fields are read by `int()`, which maps each `Nd`
character to its decimal value; likewise `str.isdigit` accepts every
character of Unicode `Numeric_Type` Digit or Decimal.  Both character sets
and the digit values are embedded below as the code-point range tables of
Unicode 14.0.0, the tables CPython 3.11 ships.
-/

namespace ContactBook

/-! ### Calendar arithmetic (CPython `datetime.date` model) -/

/-- Gregorian leap-year test, as in CPython `datetime`. -/
def isLeap (y : Nat) : Bool :=
  y % 4 == 0 && (y % 100 != 0 || y % 400 == 0)

/-- Number of days in month `m` of year `y` (months are 1-based). -/
def daysInMonth (y m : Nat) : Nat :=
  if m = 2 then (if isLeap y then 29 else 28)
  else if m = 4 ∨ m = 6 ∨ m = 9 ∨ m = 11 then 30
  else 31

/-- A calendar date: year, month (1-12), day (1-based). -/
structure Date where
  year : Nat
  month : Nat
  day : Nat
deriving DecidableEq, Repr

/-- Days in all years strictly before year `y` (year 1 is the first year). -/
def daysBeforeYear (y : Nat) : Nat :=
  365 * (y - 1) + (y - 1) / 4 - (y - 1) / 100 + (y - 1) / 400

/-- Days in the months of year `y` strictly before month `m`. -/
def daysBeforeMonth (y m : Nat) : Nat :=
  (List.range (m - 1)).foldl (fun acc i => acc + daysInMonth y (i + 1)) 0

/-- CPython `date.toordinal`: day 1 is January 1 of year 1. -/
def toOrdinal (d : Date) : Nat :=
  daysBeforeYear d.year + daysBeforeMonth d.year d.month + d.day

/-- CPython `date.weekday`: Monday is 0, Sunday is 6. -/
def Date.weekday (d : Date) : Nat :=
  (toOrdinal d + 6) % 7

/-- The calendar successor of a (valid) date. -/
def Date.nextDay (d : Date) : Date :=
  if d.day < daysInMonth d.year d.month then { d with day := d.day + 1 }
  else if d.month < 12 then { year := d.year, month := d.month + 1, day := 1 }
  else { year := d.year + 1, month := 1, day := 1 }

/-- `d + timedelta(days := n)` for a valid date `d`. -/
def Date.addDays (d : Date) : Nat → Date
  | 0 => d
  | n + 1 => d.nextDay.addDays n

/-- Python `date` comparison: lexicographic on (year, month, day). -/
def dateLt (a b : Date) : Bool :=
  decide (a.year < b.year ∨ (a.year = b.year ∧
    (a.month < b.month ∨ (a.month = b.month ∧ a.day < b.day))))

/-- `(a - b).days` on Python dates: the ordinal difference. -/
def dateDiff (a b : Date) : Int :=
  (toOrdinal a : Int) - (toOrdinal b : Int)

/-! ### Digits, `strftime` and `strptime` for the `%d.%m.%Y` format -/

/-- Numeric value of an ASCII digit character. -/
def digitVal (c : Char) : Nat :=
  c.toNat - 48

/-- Code-point ranges of Unicode category `Nd` (decimal digits), Unicode
14.0.0: what the regex class `\d` matches in Python 3 and what `int()`
parses.  Every range is an aligned run of digit cycles 0-9 (the 50-wide
run holds the five consecutive mathematical digit alphabets), so a
digit's value is its offset into its range modulo 10. -/
def ndRanges : List (Nat × Nat) :=
  [(48, 57), (1632, 1641), (1776, 1785), (1984, 1993), (2406, 2415),
   (2534, 2543), (2662, 2671), (2790, 2799), (2918, 2927), (3046, 3055),
   (3174, 3183), (3302, 3311), (3430, 3439), (3558, 3567), (3664, 3673),
   (3792, 3801), (3872, 3881), (4160, 4169), (4240, 4249), (6112, 6121),
   (6160, 6169), (6470, 6479), (6608, 6617), (6784, 6793), (6800, 6809),
   (6992, 7001), (7088, 7097), (7232, 7241), (7248, 7257), (42528, 42537),
   (43216, 43225), (43264, 43273), (43472, 43481), (43504, 43513),
   (43600, 43609), (44016, 44025), (65296, 65305), (66720, 66729),
   (68912, 68921), (69734, 69743), (69872, 69881), (69942, 69951),
   (70096, 70105), (70384, 70393), (70736, 70745), (70864, 70873),
   (71248, 71257), (71360, 71369), (71472, 71481), (71904, 71913),
   (72016, 72025), (72784, 72793), (73040, 73049), (73120, 73129),
   (92768, 92777), (92864, 92873), (93008, 93017), (120782, 120831),
   (123200, 123209), (123632, 123641), (125264, 125273), (130032, 130041)]

/-- Unicode decimal digit test: Python 3's regex class `\d`. -/
def isNd (c : Char) : Bool :=
  ndRanges.any (fun r => decide (r.1 ≤ c.toNat ∧ c.toNat ≤ r.2))

/-- Decimal value of a Unicode decimal digit, as `int()` reads it. -/
def ndVal (c : Char) : Nat :=
  match ndRanges.find? (fun r => decide (r.1 ≤ c.toNat ∧ c.toNat ≤ r.2)) with
  | some r => (c.toNat - r.1) % 10
  | none => 0

/-- Code-point ranges on which Python's `str.isdigit` is true (Unicode
`Numeric_Type` Digit or Decimal, Unicode 14.0.0): all of `Nd` plus
superscript, subscript, circled and similar digit characters. -/
def pyDigitRanges : List (Nat × Nat) :=
  [(48, 57), (178, 179), (185, 185), (1632, 1641), (1776, 1785),
   (1984, 1993), (2406, 2415), (2534, 2543), (2662, 2671), (2790, 2799),
   (2918, 2927), (3046, 3055), (3174, 3183), (3302, 3311), (3430, 3439),
   (3558, 3567), (3664, 3673), (3792, 3801), (3872, 3881), (4160, 4169),
   (4240, 4249), (4969, 4977), (6112, 6121), (6160, 6169), (6470, 6479),
   (6608, 6618), (6784, 6793), (6800, 6809), (6992, 7001), (7088, 7097),
   (7232, 7241), (7248, 7257), (8304, 8304), (8308, 8313), (8320, 8329),
   (9312, 9320), (9332, 9340), (9352, 9360), (9450, 9450), (9461, 9469),
   (9471, 9471), (10102, 10110), (10112, 10120), (10122, 10130),
   (42528, 42537), (43216, 43225), (43264, 43273), (43472, 43481),
   (43504, 43513), (43600, 43609), (44016, 44025), (65296, 65305),
   (66720, 66729), (68160, 68163), (68912, 68921), (69216, 69224),
   (69714, 69722), (69734, 69743), (69872, 69881), (69942, 69951),
   (70096, 70105), (70384, 70393), (70736, 70745), (70864, 70873),
   (71248, 71257), (71360, 71369), (71472, 71481), (71904, 71913),
   (72016, 72025), (72784, 72793), (73040, 73049), (73120, 73129),
   (92768, 92777), (92864, 92873), (93008, 93017), (120782, 120831),
   (123200, 123209), (123632, 123641), (125264, 125273),
   (127232, 127242), (130032, 130041)]

/-- One character of Python's `str.isdigit`. -/
def pyIsdigitChar (c : Char) : Bool :=
  pyDigitRanges.any (fun r => decide (r.1 ≤ c.toNat ∧ c.toNat ≤ r.2))

/-- Zero-pad a number to two characters, as `%d` and `%m` do. -/
def pad2 (n : Nat) : String :=
  if n < 10 then "0" ++ toString n else toString n

/-- `date.strftime("%d.%m.%Y")`. -/
def strftime_ddmmyyyy (d : Date) : String :=
  pad2 d.day ++ "." ++ pad2 d.month ++ "." ++ toString d.year

/-- Split a character list at every dot, like `str.split(".")`. -/
def splitDots : List Char → List (List Char)
  | [] => [[]]
  | c :: cs =>
    if c = '.' then [] :: splitDots cs
    else
      match splitDots cs with
      | [] => [[c]]
      | g :: gs => (c :: g) :: gs

/-- Day field of `strptime`, the regex `3[01]|[12]\d|0[1-9]|[1-9]`
(character codes: `'0'` is 48, ..., `'9'` is 57; `\d` is any Unicode
decimal digit, and `int()` reads the matched text per-character). -/
def matchDay : List Char → Option Nat
  | [c1, c2] =>
    if c1.toNat = 51 ∧ (c2.toNat = 48 ∨ c2.toNat = 49) then
      some (10 * digitVal c1 + digitVal c2)
    else if (c1.toNat = 49 ∨ c1.toNat = 50) ∧ isNd c2 = true then
      some (10 * digitVal c1 + ndVal c2)
    else if c1.toNat = 48 ∧ 49 ≤ c2.toNat ∧ c2.toNat ≤ 57 then
      some (digitVal c2)
    else none
  | [c] => if 49 ≤ c.toNat ∧ c.toNat ≤ 57 then some (digitVal c) else none
  | _ => none

/-- Month field of `strptime`, the regex `1[0-2]|0[1-9]|[1-9]`. -/
def matchMonth : List Char → Option Nat
  | [c1, c2] =>
    if c1.toNat = 49 ∧ (c2.toNat = 48 ∨ c2.toNat = 49 ∨ c2.toNat = 50) then
      some (10 + digitVal c2)
    else if c1.toNat = 48 ∧ 49 ≤ c2.toNat ∧ c2.toNat ≤ 57 then
      some (digitVal c2)
    else none
  | [c] => if 49 ≤ c.toNat ∧ c.toNat ≤ 57 then some (digitVal c) else none
  | _ => none

/-- Year field of `strptime`, the regex `\d\d\d\d`: exactly four Unicode
decimal digits of any script, read by `int()` per-character. -/
def matchYear : List Char → Option Nat
  | [c1, c2, c3, c4] =>
    if isNd c1 = true ∧ isNd c2 = true ∧ isNd c3 = true ∧ isNd c4 = true then
      some (1000 * ndVal c1 + 100 * ndVal c2 + 10 * ndVal c3 + ndVal c4)
    else none
  | _ => none

/-- `datetime.strptime(s, "%d.%m.%Y").date()`: the dot-separated fields must
match their regexes over the whole string, and the resulting triple must be
a real calendar date with `1 ≤ year` (CPython `MINYEAR`). -/
def strptime_dmY (s : String) : Option Date :=
  match splitDots s.data with
  | [ds, ms, ys] =>
    match matchDay ds, matchMonth ms, matchYear ys with
    | some d, some m, some y =>
      if 1 ≤ y ∧ d ≤ daysInMonth y m then some ⟨y, m, d⟩ else none
    | _, _, _ => none
  | _ => none

/-! ### Field validators -/

/-- The `Name` field constructor: rejects the empty (falsy) string. -/
def Name (value : String) : Except String String :=
  if value = "" then .error "Name cannot be empty" else .ok value

/-- Python `str.isdigit`: nonempty and every character of Unicode
`Numeric_Type` Digit or Decimal. -/
def pyIsdigit (s : String) : Bool :=
  !s.data.isEmpty && s.data.all pyIsdigitChar

/-- The `Phone` field constructor. -/
def Phone (value : String) : Except String String :=
  if !pyIsdigit value || value.length != 10 then
    .error "Phone must contain exactly 10 digits"
  else .ok value

/-- The `Birthday` field constructor: any failure inside `strptime`
(including an invalid calendar date) becomes the fixed message. -/
def Birthday (value : String) : Except String String :=
  match strptime_dmY value with
  | none => .error "Invalid date format. Use DD.MM.YYYY"
  | some _ => .ok value

/-- `Birthday.date_obj`: re-parse the stored (already validated) string.
The default is never reached for strings accepted by `Birthday`. -/
def date_obj (value : String) : Date :=
  (strptime_dmY value).getD ⟨1, 1, 1⟩

/-! ### Contact records -/

/-- A contact record: the (validated) name value, the ordered list of
(validated) phone values, and the optional birthday string. -/
structure Record where
  name : String
  phones : List String
  birthday : Option String
deriving DecidableEq, Repr

/-- `Record(name)`: validates the name and starts with no phones and no
birthday. -/
def Record_new (name : String) : Except String Record := do
  let n ← Name name
  .ok ⟨n, [], none⟩

/-- `Record.find_phone`: first stored phone whose value equals `phone`. -/
def Record.find_phone (r : Record) (phone : String) : Option String :=
  r.phones.find? (fun ph => ph == phone)

/-- `Record.add_phone`: validate and append (no deduplication). -/
def Record.add_phone (r : Record) (phone : String) : Except String Record := do
  let p ← Phone phone
  .ok { r with phones := r.phones ++ [p] }

/-- Remove the first occurrence of `phone` from the list. -/
def removeFirst : List String → String → List String
  | [], _ => []
  | p :: ps, phone => if p = phone then ps else p :: removeFirst ps phone

/-- `Record.remove_phone`: drop the first matching phone; no-op if absent. -/
def Record.remove_phone (r : Record) (phone : String) : Record :=
  match r.find_phone phone with
  | none => r
  | some _ => { r with phones := removeFirst r.phones phone }

/-- Replace the first occurrence of `old` in the list by `new`. -/
def replaceFirst : List String → String → String → List String
  | [], _, _ => []
  | p :: ps, old, new => if p = old then new :: ps else p :: replaceFirst ps old new

/-- `Record.edit_phone`: raise if `old` is absent, otherwise validate `new`
and overwrite the first matching entry in place. -/
def Record.edit_phone (r : Record) (old new : String) : Except String Record :=
  match r.find_phone old with
  | none => .error ("Phone " ++ old ++ " not found")
  | some _ => do
    let np ← Phone new
    .ok { r with phones := replaceFirst r.phones old np }

/-- `Record.add_birthday`: validate and set/overwrite the birthday. -/
def Record.add_birthday (r : Record) (bday : String) : Except String Record := do
  let b ← Birthday bday
  .ok { r with birthday := some b }

/-! ### The address book -/

/-- The address book: an insertion-ordered association list from names to
records, modelling a Python `dict`. -/
abbrev AddressBook := List (String × Record)

/-- `AddressBook.add_record`: `self.data[record.name.value] = record` —
overwrite in place if the key is present, else append. -/
def add_record (b : AddressBook) (r : Record) : AddressBook :=
  if b.any (fun kv => kv.1 == r.name) then
    b.map (fun kv => if kv.1 == r.name then (kv.1, r) else kv)
  else b ++ [(r.name, r)]

/-- `AddressBook.find`: `self.data.get(name)`. -/
def find (b : AddressBook) (name : String) : Option Record :=
  (b.find? (fun kv => kv.1 == name)).map Prod.snd

/-- `AddressBook.delete`: remove the entry if present, else no-op. -/
def delete (b : AddressBook) (name : String) : AddressBook :=
  b.filter (fun kv => kv.1 != name)

/-- Overwrite the record stored under `name` (in-place mutation of the
record object found in the book). -/
def updateAt (b : AddressBook) (name : String) (r : Record) : AddressBook :=
  b.map (fun kv => if kv.1 == name then (kv.1, r) else kv)

/-! ### The upcoming-birthday query -/

/-- `date.replace(year := y)`: CPython re-checks the date fields and raises
`ValueError` when the year is out of `MINYEAR..MAXYEAR` or the day does not
exist in the month of the new year. -/
def dateReplaceYear (d : Date) (y : Nat) : Except String Date :=
  if y < 1 ∨ 9999 < y then .error ("year " ++ toString y ++ " is out of range")
  else if daysInMonth y d.month < d.day then .error "day is out of range for month"
  else .ok { d with year := y }

/-- `adjust_for_weekend`: Saturday moves 2 days forward, Sunday 1 day. -/
def adjust_for_weekend (d : Date) : Date :=
  if d.weekday = 5 then d.addDays 2
  else if d.weekday = 6 then d.addDays 1
  else d

/-- The loop body of `get_upcoming_birthdays` for one record: `none` when
the record is skipped, `some (name, formatted)` when it is reported, and
an error when a `replace` raises. -/
def upcoming_entry (today : Date) (days : Nat) (r : Record) :
    Except String (Option (String × String)) :=
  match r.birthday with
  | none => .ok none
  | some bs => do
    let bday := date_obj bs
    let bty ← dateReplaceYear bday today.year
    let occ ← if dateLt bty today then dateReplaceYear bty (today.year + 1) else .ok bty
    if 0 ≤ dateDiff occ today ∧ dateDiff occ today ≤ (days : Int) then
      .ok (some (r.name, strftime_ddmmyyyy (adjust_for_weekend occ)))
    else .ok none

/-- `AddressBook.get_upcoming_birthdays(days)` with the current date
injected: iterate the records in insertion order, collecting the kept
entries; a raised `ValueError` aborts the whole computation. -/
def get_upcoming_birthdays (b : AddressBook) (today : Date) (days : Nat) :
    Except String (List (String × String)) :=
  match b with
  | [] => .ok []
  | kv :: rest => do
    let e ← upcoming_entry today days kv.2
    let tail ← get_upcoming_birthdays rest today days
    .ok (match e with | some x => x :: tail | none => tail)

/-! ### Command handlers and the `input_error` wrapper -/

/-- The `ValueError` branch of `input_error`: `str(e) or "Not enough
arguments."`. -/
def wrapValueError (msg : String) : String :=
  if msg = "" then "Not enough arguments." else msg

/-- CPython's message for a failed tuple unpacking of `got` values into
`expected` names. -/
def unpack_msg (expected got : Nat) : String :=
  if got < expected then
    "not enough values to unpack (expected " ++ toString expected ++
      ", got " ++ toString got ++ ")"
  else "too many values to unpack (expected " ++ toString expected ++ ")"

/-- The `add name phone` handler under `input_error`, returning the display
message and the resulting book.  The record for a fresh name is added to
the book before the phone is validated. -/
def add_contact (args : List String) (book : AddressBook) : String × AddressBook :=
  match args with
  | [name, phone] =>
    match find book name with
    | none =>
      match Record_new name with
      | .error e => (wrapValueError e, book)
      | .ok r =>
        let book1 := add_record book r
        match Phone phone with
        | .error e => (wrapValueError e, book1)
        | .ok p => ("Contact added.", updateAt book1 name { r with phones := [p] })
    | some r =>
      match Phone phone with
      | .error e => (wrapValueError e, book)
      | .ok p =>
        ("Contact updated.", updateAt book name { r with phones := r.phones ++ [p] })
  | _ => (wrapValueError (unpack_msg 2 args.length), book)

/-- The `change name old new` handler under `input_error`: an absent record
makes `record.edit_phone` raise `AttributeError`, reported as
"Contact not found.". -/
def change_contact (args : List String) (book : AddressBook) : String × AddressBook :=
  match args with
  | [name, old, new] =>
    match find book name with
    | none => ("Contact not found.", book)
    | some r =>
      match r.edit_phone old new with
      | .error e => (wrapValueError e, book)
      | .ok r2 => ("Phone updated.", updateAt book name r2)
  | _ => (wrapValueError (unpack_msg 3 args.length), book)

/-- The `birthdays` handler under `input_error`, with the current date
injected; a `ValueError` escaping `get_upcoming_birthdays` is rendered by
the wrapper. -/
def birthdays (args : List String) (book : AddressBook) (today : Date) : String :=
  match args, get_upcoming_birthdays book today 7 with
  | _, .error e => wrapValueError e
  | _, .ok [] => "No upcoming birthdays."
  | _, .ok l => String.intercalate "\n" (l.map (fun u => u.1 ++ ": " ++ u.2))

/-! ### General helper lemmas -/

deriving instance DecidableEq for Except

/-- C3 counterexample: Python's `str.isdigit` is not limited to ASCII —
the Arabic-Indic string "٠١٢٣٤٥٦٧٨٩" has length 10 and passes `isdigit`,
so the program constructs the `Phone` successfully, although the string
contains no ASCII digit at all; the claimed "ASCII digits only"
equivalence fails at this input. -/
theorem phone_claim_cex :
    Phone "٠١٢٣٤٥٦٧٨٩" = .ok "٠١٢٣٤٥٦٧٨٩" ∧
    ("٠١٢٣٤٥٦٧٨٩" : String).length = 10 ∧
    "٠١٢٣٤٥٦٧٨٩".data.all Char.isDigit = false := by
  refine ⟨?_, ?_, ?_⟩ <;> rfl

/-- C3 (amended): `Phone(p)` succeeds exactly when `p` has length 10 and
every character is one Python's `str.isdigit` accepts — a Unicode digit
(`Numeric_Type` Digit or Decimal, so a decimal digit of any script or a
superscript/subscript/circled digit) — and otherwise fails with the
message "Phone must contain exactly 10 digits". -/
theorem phone_valid_iff (p : String) :
    (Phone p = .ok p ↔ (p.length = 10 ∧ p.data.all pyIsdigitChar = true)) ∧
    (Phone p ≠ .ok p → Phone p = .error "Phone must contain exactly 10 digits") := by
  have hlen : p.length = p.data.length := rfl
  have key : Phone p = .ok p ↔ (pyIsdigit p = true ∧ p.length = 10) := by
    unfold Phone
    split
    · rename_i hc
      simp only [Bool.or_eq_true, Bool.not_eq_true', bne_iff_ne] at hc
      constructor
      · intro h; cases h
      · intro ⟨h1, h2⟩
        rcases hc with hc | hc
        · rw [h1] at hc; cases hc
        · exact absurd h2 hc
    · rename_i hc
      simp only [Bool.or_eq_true, Bool.not_eq_true', bne_iff_ne, not_or,
        Bool.not_eq_false, not_not] at hc
      simp only [Except.ok.injEq, true_iff]
      exact hc
  have key2 : (pyIsdigit p = true ∧ p.length = 10) ↔
      (p.length = 10 ∧ p.data.all pyIsdigitChar = true) := by
    unfold pyIsdigit
    constructor
    · intro ⟨h1, h2⟩
      rw [Bool.and_eq_true, Bool.not_eq_true'] at h1
      exact ⟨h2, h1.2⟩
    · intro ⟨h1, h2⟩
      refine ⟨?_, h1⟩
      rw [Bool.and_eq_true, Bool.not_eq_true']
      refine ⟨?_, h2⟩
      cases he : p.data.isEmpty
      · rfl
      · rw [List.isEmpty_iff] at he
        rw [hlen, he] at h1
        cases h1
  constructor
  · exact key.trans key2
  · unfold Phone
    split
    · intro _; rfl
    · intro h; exact absurd rfl h

/-- C3 witness: "1234567890" and the Arabic-Indic "٠١٢٣٤٥٦٧٨٩" are
accepted, "123" is rejected with the fixed message. -/
theorem phone_valid_iff_witness :
    Phone "1234567890" = .ok "1234567890" ∧
    Phone "٠١٢٣٤٥٦٧٨٩" = .ok "٠١٢٣٤٥٦٧٨٩" ∧
    Phone "123" = .error "Phone must contain exactly 10 digits" :=
  ⟨(phone_valid_iff "1234567890").1.mpr (by decide),
   (phone_valid_iff "٠١٢٣٤٥٦٧٨٩").1.mpr (by decide),
   (phone_valid_iff "123").2 (by decide)⟩

/-- C10: on a book holding a February-29 birthday, with the injected today
in a non-leap year, `get_upcoming_birthdays` raises "day is out of range
for month" at the year-replacement step, so the `birthdays` handler
returns that text and reports nobody — although the other contact (bob,
June 5) would have been reported had the book held only bob. -/
theorem birthdays_feb29_raises :
    birthdays [] [("alice", ⟨"alice", [], some "29.02.2020"⟩),
                  ("bob", ⟨"bob", [], some "05.06.2010"⟩)] ⟨2023, 6, 1⟩
        = "day is out of range for month" ∧
    get_upcoming_birthdays
        [("alice", ⟨"alice", [], some "29.02.2020"⟩),
         ("bob", ⟨"bob", [], some "05.06.2010"⟩)] ⟨2023, 6, 1⟩ 7
        = .error "day is out of range for month" ∧
    get_upcoming_birthdays [("bob", ⟨"bob", [], some "05.06.2010"⟩)] ⟨2023, 6, 1⟩ 7
        = .ok [("bob", "05.06.2023")] := by
  refine ⟨?_, ?_, ?_⟩ <;> rfl

/-! ### Phone-list helper lemmas -/

lemma find_first_mem (l : List String) (p : String) (h : p ∈ l) :
    l.find? (fun ph => ph == p) = some p := by
  induction l with
  | nil => cases h
  | cons a t ih =>
    by_cases ha : a = p
    · subst ha; rw [List.find?_cons_of_pos _ (by simp)]
    · rw [List.find?_cons_of_neg _ (by simp [ha])]
      exact ih (by rcases List.mem_cons.mp h with h1 | h1; exact absurd h1.symm ha; exact h1)

lemma find_first_none (l : List String) (p : String) (h : ∀ q ∈ l, q ≠ p) :
    l.find? (fun ph => ph == p) = none := by
  rw [List.find?_eq_none]
  intro q hq
  simp [h q hq]

lemma replaceFirst_append (pre post : List String) (old new : String) (h : old ∉ pre) :
    replaceFirst (pre ++ old :: post) old new = pre ++ new :: post := by
  induction pre with
  | nil => simp [replaceFirst]
  | cons a t ih =>
    simp only [List.cons_append, replaceFirst]
    rw [if_neg (show ¬a = old by intro ha; subst ha; exact h (List.mem_cons_self a t))]
    congr 1
    exact ih (fun hm => h (List.mem_cons_of_mem a hm))

lemma removeFirst_append (pre post : List String) (p : String) (h : p ∉ pre) :
    removeFirst (pre ++ p :: post) p = pre ++ post := by
  induction pre with
  | nil => simp [removeFirst]
  | cons a t ih =>
    simp only [List.cons_append, removeFirst]
    rw [if_neg (show ¬a = p by intro ha; subst ha; exact h (List.mem_cons_self a t))]
    congr 1
    exact ih (fun hm => h (List.mem_cons_of_mem a hm))

/-- C6: `editPhone(old, new)` fails with "Phone {old} not found" when no
stored phone equals `old` (and, being a pure function here, touches
nothing); otherwise it validates `new` and overwrites exactly the first
entry equal to `old`, in place, leaving every other entry where it was. -/
theorem edit_phone_spec (r : Record) (old new : String) :
    ((∀ q ∈ r.phones, q ≠ old) →
        r.edit_phone old new = .error ("Phone " ++ old ++ " not found")) ∧
    (∀ pre post, r.phones = pre ++ old :: post → old ∉ pre → Phone new = .ok new →
        r.edit_phone old new = .ok { r with phones := pre ++ new :: post }) := by
  constructor
  · intro h
    unfold Record.edit_phone
    rw [show r.find_phone old = none from find_first_none r.phones old h]
  · intro pre post hsplit hpre hnew
    have hf : r.find_phone old = some old := by
      unfold Record.find_phone
      rw [hsplit]
      exact find_first_mem _ old (by simp)
    unfold Record.edit_phone
    rw [hf]
    show Phone new >>= _ = _
    rw [hnew]
    have hrw : replaceFirst r.phones old new = pre ++ new :: post := by
      rw [hsplit]; exact replaceFirst_append pre post old new hpre
    rw [← hrw]
    rfl

/-- C6 witness: on the record holding phones ["1234567890", "0000000000"],
editing an absent phone fails with the expected message, and editing
"0000000000" replaces it in the second position. -/
theorem edit_phone_spec_witness :
    Record.edit_phone ⟨"alice", ["1234567890", "0000000000"], none⟩
        "9999999999" "1111111111" = .error "Phone 9999999999 not found" ∧
    Record.edit_phone ⟨"alice", ["1234567890", "0000000000"], none⟩
        "0000000000" "1111111111"
      = .ok ⟨"alice", ["1234567890", "1111111111"], none⟩ := by
  constructor
  · exact ((edit_phone_spec ⟨"alice", ["1234567890", "0000000000"], none⟩
      "9999999999" "1111111111").1 (by decide)).trans (by decide)
  · exact ((edit_phone_spec ⟨"alice", ["1234567890", "0000000000"], none⟩
      "0000000000" "1111111111").2 ["1234567890"] [] (by decide) (by decide)
      (by decide)).trans (by decide)

/-- C8 counterexample: the claim asserts that for EVERY record, after
`addPhone(p)` a subsequent `removePhone(p)` makes `findPhone(p)` absent.
On a record that already stored "1234567890", adding and removing that
phone still leaves one copy, so `findPhone` finds it. -/
theorem phone_roundtrip_cex :
    Record.add_phone ⟨"alice", ["1234567890"], none⟩ "1234567890"
        = .ok ⟨"alice", ["1234567890", "1234567890"], none⟩ ∧
    Record.find_phone
        (Record.remove_phone ⟨"alice", ["1234567890", "1234567890"], none⟩
          "1234567890") "1234567890"
        = some "1234567890" := by
  constructor <;> rfl

/-- C8 (amended): for a valid phone `p`, `addPhone(p)` appends `p` and
`findPhone(p)` then returns `p`; provided `p` was not already stored,
`removePhone(p)` restores the record and `findPhone(p)` becomes absent.
In general `removePhone` deletes exactly the first matching entry and is a
no-op when nothing matches. -/
theorem phone_roundtrip (r : Record) (p : String) (hp : Phone p = .ok p) :
    r.add_phone p = .ok { r with phones := r.phones ++ [p] } ∧
    Record.find_phone { r with phones := r.phones ++ [p] } p = some p ∧
    (p ∉ r.phones →
      Record.remove_phone { r with phones := r.phones ++ [p] } p = r ∧
      Record.find_phone (Record.remove_phone { r with phones := r.phones ++ [p] } p) p
        = none) ∧
    (∀ q, q ∉ r.phones → r.remove_phone q = r) ∧
    (∀ pre post, r.phones = pre ++ p :: post → p ∉ pre →
      (r.remove_phone p).phones = pre ++ post) := by
  have hfind : Record.find_phone { r with phones := r.phones ++ [p] } p = some p := by
    unfold Record.find_phone
    exact find_first_mem _ p (by simp)
  refine ⟨?_, hfind, ?_, ?_, ?_⟩
  · unfold Record.add_phone
    show Phone p >>= _ = _
    rw [hp]
    rfl
  · intro hnot
    have hrm : Record.remove_phone { r with phones := r.phones ++ [p] } p = r := by
      unfold Record.remove_phone
      rw [hfind]
      show ({ r with phones := removeFirst (r.phones ++ [p]) p } : Record) = r
      rw [removeFirst_append r.phones [] p hnot, List.append_nil]
    refine ⟨hrm, ?_⟩
    rw [hrm]
    unfold Record.find_phone
    exact find_first_none _ p (fun q hq hqp => hnot (hqp ▸ hq))
  · intro q hq
    unfold Record.remove_phone
    rw [show r.find_phone q = none from
      find_first_none _ q (fun x hx hxq => hq (hxq ▸ hx))]
  · intro pre post hsplit hpre
    unfold Record.remove_phone Record.find_phone
    rw [hsplit, find_first_mem _ p (by simp)]
    show removeFirst (pre ++ p :: post) p = pre ++ post
    exact removeFirst_append pre post p hpre

/-- C8 witness: the round trip on a fresh record with phone "1234567890". -/
theorem phone_roundtrip_witness :
    Record.find_phone
        (Record.remove_phone ⟨"bob", ["1234567890"], none⟩ "1234567890")
        "1234567890" = none := by
  have h := ((phone_roundtrip ⟨"bob", [], none⟩ "1234567890"
    (by decide)).2.2.1 (by decide)).2
  exact h

/-! ### Handler helper lemmas -/

lemma Phone_total (p : String) :
    Phone p = .ok p ∨ Phone p = .error "Phone must contain exactly 10 digits" := by
  unfold Phone
  split
  · right; rfl
  · left; rfl

lemma phone_msg_ne_empty (old : String) : ("Phone " ++ old ++ " not found") ≠ "" := by
  intro h
  have hlen := congrArg String.length h
  rw [String.length_append, String.length_append] at hlen
  have h6 : ("Phone " : String).length = 6 := rfl
  have h10 : (" not found" : String).length = 10 := rfl
  have h0 : ("" : String).length = 0 := rfl
  omega

/-- C5: with exactly three arguments, the `change` handler answers
"Contact not found." on an unknown name (leaving the book untouched),
the `editPhone` error message when no stored phone equals `old`, and
"Phone updated." when the edit succeeds.  The handler is a total function
into strings: nothing escapes the `input_error` boundary. -/
theorem change_contact_results (book : AddressBook) (name old new : String) :
    (find book name = none →
        change_contact [name, old, new] book = ("Contact not found.", book)) ∧
    (∀ r, find book name = some r →
      ((∀ q ∈ r.phones, q ≠ old) →
          change_contact [name, old, new] book
            = ("Phone " ++ old ++ " not found", book)) ∧
      (old ∈ r.phones → Phone new = .ok new →
          (change_contact [name, old, new] book).1 = "Phone updated.")) := by
  constructor
  · intro h
    simp only [change_contact]
    rw [h]
  · intro r hr
    constructor
    · intro habs
      simp only [change_contact]
      rw [hr]
      have he : r.edit_phone old new = .error ("Phone " ++ old ++ " not found") := by
        unfold Record.edit_phone
        rw [show r.find_phone old = none from find_first_none r.phones old habs]
      show (match r.edit_phone old new with
        | Except.error e => (wrapValueError e, book)
        | Except.ok r2 => ("Phone updated.", updateAt book name r2)) = _
      rw [he]
      show (wrapValueError ("Phone " ++ old ++ " not found"), book) = _
      unfold wrapValueError
      rw [if_neg (phone_msg_ne_empty old)]
    · intro hmem hnew
      simp only [change_contact]
      rw [hr]
      have hf : r.find_phone old = some old := by
        unfold Record.find_phone
        exact find_first_mem _ old hmem
      have he : r.edit_phone old new
          = .ok { r with phones := replaceFirst r.phones old new } := by
        unfold Record.edit_phone
        rw [hf]
        show Phone new >>= _ = _
        rw [hnew]
        rfl
      show (match r.edit_phone old new with
        | Except.error e => (wrapValueError e, book)
        | Except.ok r2 => ("Phone updated.", updateAt book name r2)).1 = _
      rw [he]

/-- C5 witness: `change(["bob", "123", "456"])` on the empty book answers
"Contact not found.", and a successful edit answers "Phone updated.". -/
theorem change_contact_results_witness :
    change_contact ["bob", "123", "456"] [] = ("Contact not found.", []) ∧
    (change_contact ["bob", "1234567890", "0987654321"]
        [("bob", ⟨"bob", ["1234567890"], none⟩)]).1 = "Phone updated." :=
  ⟨(change_contact_results [] "bob" "123" "456").1 (by decide),
   ((change_contact_results [("bob", ⟨"bob", ["1234567890"], none⟩)]
      "bob" "1234567890" "0987654321").2 ⟨"bob", ["1234567890"], none⟩
      (by decide)).2 (by decide) (by decide)⟩

lemma find_none_any_false (b : AddressBook) (n : String) (h : find b n = none) :
    b.any (fun kv => kv.1 == n) = false := by
  unfold find at h
  rw [Option.map_eq_none', List.find?_eq_none] at h
  rw [List.any_eq_false]
  exact h

lemma find_append_self (b : AddressBook) (n : String) (r : Record)
    (h : find b n = none) : find (b ++ [(n, r)]) n = some r := by
  unfold find at h ⊢
  rw [Option.map_eq_none'] at h
  rw [List.find?_append, h]
  simp [List.find?]

/-- C4: calling `add name phone` with a fresh (nonempty) name and an
invalid phone still inserts a phone-less record for that name into the
book, and returns the phone validation message rather than
"Contact added.".  (Arguments come from whitespace splitting, so the name
token is never the empty string that `Name` would reject.) -/
theorem add_contact_invalid_phone (book : AddressBook) (name phone : String)
    (hname : name ≠ "") (hfind : find book name = none)
    (hphone : Phone phone ≠ .ok phone) :
    add_contact [name, phone] book
      = ("Phone must contain exactly 10 digits",
          add_record book ⟨name, [], none⟩) ∧
    add_record book ⟨name, [], none⟩ = book ++ [(name, ⟨name, [], none⟩)] ∧
    find (add_record book ⟨name, [], none⟩) name = some ⟨name, [], none⟩ ∧
    ("Phone must contain exactly 10 digits" : String) ≠ "Contact added." := by
  have htotal : Phone phone = .error "Phone must contain exactly 10 digits" :=
    (Phone_total phone).resolve_left hphone
  have hrec : Record_new name = .ok ⟨name, [], none⟩ := by
    unfold Record_new Name
    rw [if_neg hname]
    rfl
  have happend : add_record book ⟨name, [], none⟩
      = book ++ [(name, ⟨name, [], none⟩)] := by
    unfold add_record
    rw [find_none_any_false book name hfind]
    simp
  refine ⟨?_, happend, ?_, by decide⟩
  · simp only [add_contact]
    rw [hfind, hrec, htotal]
    rfl
  · rw [happend]
    exact find_append_self book name ⟨name, [], none⟩ hfind

/-- C4 witness: adding "alice" with the invalid phone "123" to the empty
book leaves a phone-less alice record behind and reports the validation
message. -/
theorem add_contact_invalid_phone_witness :
    add_contact ["alice", "123"] []
      = ("Phone must contain exactly 10 digits",
          [("alice", ⟨"alice", [], none⟩)]) ∧
    find [("alice", ⟨"alice", [], none⟩)] "alice" = some ⟨"alice", [], none⟩ := by
  have h := add_contact_invalid_phone [] "alice" "123" (by decide) (by decide)
    (by decide)
  exact ⟨h.1, h.2.2.1⟩

/-! ### Address-book key lemmas -/

/-- The keys of the book, in insertion order. -/
def keysOf (b : AddressBook) : List String :=
  b.map Prod.fst

/-- Number of entries stored under the name `n`. -/
def countName (b : AddressBook) (n : String) : Nat :=
  (b.filter (fun kv => kv.1 == n)).length

lemma keysOf_map_replace (b : AddressBook) (m : String) (r : Record) :
    keysOf (b.map (fun kv => if kv.1 == m then (kv.1, r) else kv)) = keysOf b := by
  induction b with
  | nil => rfl
  | cons kv t ih =>
    simp only [keysOf, List.map_cons] at ih ⊢
    rw [ih]
    by_cases hk : kv.1 = m
    · rw [if_pos (by simp [hk])]
    · rw [if_neg (by simp [hk])]

lemma countName_eq_count (b : AddressBook) (n : String) :
    countName b n = (keysOf b).count n := by
  unfold countName keysOf
  rw [← List.countP_eq_length_filter, List.count, List.countP_map]
  rfl

lemma any_iff_mem_keysOf (b : AddressBook) (n : String) :
    b.any (fun kv => kv.1 == n) = true ↔ n ∈ keysOf b := by
  rw [List.any_eq_true]
  constructor
  · rintro ⟨kv, hkv, hbeq⟩
    rw [beq_iff_eq] at hbeq
    exact hbeq ▸ List.mem_map_of_mem Prod.fst hkv
  · intro h
    rw [keysOf, List.mem_map] at h
    obtain ⟨kv, hkv, hfst⟩ := h
    exact ⟨kv, hkv, by rw [beq_iff_eq, hfst]⟩

lemma countName_map_replace (b : AddressBook) (m : String) (r : Record) (n : String) :
    countName (b.map (fun kv => if kv.1 == m then (kv.1, r) else kv)) n
      = countName b n := by
  rw [countName_eq_count, countName_eq_count, keysOf_map_replace]

lemma nodup_countName_one (b : AddressBook) (n : String)
    (hnd : (keysOf b).Nodup) (h : b.any (fun kv => kv.1 == n) = true) :
    countName b n = 1 := by
  rw [countName_eq_count]
  exact List.count_eq_one_of_mem hnd ((any_iff_mem_keysOf b n).mp h)

lemma find_map_replace (b : AddressBook) (r2 : Record) (n : String)
    (h : b.any (fun kv => kv.1 == n) = true) :
    find (b.map (fun kv => if kv.1 == n then (kv.1, r2) else kv)) n = some r2 := by
  induction b with
  | nil => cases h
  | cons kv t ih =>
    unfold find
    rw [List.map_cons]
    by_cases hk : kv.1 = n
    · rw [if_pos (by simp [hk]), List.find?_cons_of_pos _ (by simp [hk])]
      rfl
    · rw [if_neg (by simp [hk]), List.find?_cons_of_neg _ (by simp [hk])]
      rw [List.any_cons, Bool.or_eq_true] at h
      rcases h with h1 | h1
      · rw [beq_iff_eq] at h1; exact absurd h1 hk
      · exact ih h1

lemma any_add_record_self (b : AddressBook) (r : Record) :
    (add_record b r).any (fun kv => kv.1 == r.name) = true := by
  unfold add_record
  split
  · rename_i h
    rw [List.any_eq_true] at h ⊢
    obtain ⟨kv, hkv, hbeq⟩ := h
    exact ⟨(kv.1, r), List.mem_map.mpr ⟨kv, hkv, by rw [if_pos hbeq]⟩, hbeq⟩
  · rw [List.any_append]
    simp

lemma keysOf_add_record_nodup (b : AddressBook) (r : Record)
    (hnd : (keysOf b).Nodup) : (keysOf (add_record b r)).Nodup := by
  unfold add_record
  split
  · rw [keysOf_map_replace]
    exact hnd
  · rename_i h
    rw [Bool.not_eq_true, List.any_eq_false] at h
    rw [keysOf, List.map_append]
    rw [List.nodup_append]
    refine ⟨hnd, List.nodup_singleton _, ?_⟩
    intro x hx hy
    rw [show (List.map Prod.fst [(r.name, r)] : List String) = [r.name] from rfl,
      List.mem_singleton] at hy
    rw [List.mem_map] at hx
    obtain ⟨kv, hkv, hfst⟩ := hx
    exact h kv hkv (by rw [beq_iff_eq, hfst, hy])

/-- C7: `addRecord` is a total function (it never raises); it keeps the
per-name uniqueness of the book, and adding two records carrying the same
name leaves exactly one entry under that name, holding the second record. -/
theorem add_record_overwrites (b : AddressBook) (r r2 : Record)
    (hnd : (keysOf b).Nodup) (hname : r2.name = r.name) :
    (keysOf (add_record b r)).Nodup ∧
    countName (add_record (add_record b r) r2) r.name = 1 ∧
    find (add_record (add_record b r) r2) r.name = some r2 := by
  have hnd1 : (keysOf (add_record b r)).Nodup := keysOf_add_record_nodup b r hnd
  have hany : (add_record b r).any (fun kv => kv.1 == r.name) = true :=
    any_add_record_self b r
  have hcount1 : countName (add_record b r) r.name = 1 :=
    nodup_countName_one (add_record b r) r.name hnd1 hany
  have hsecond : add_record (add_record b r) r2
      = (add_record b r).map
          (fun kv => if kv.1 == r2.name then (kv.1, r2) else kv) := by
    unfold add_record
    rw [if_pos (by rw [hname]; exact hany)]
  refine ⟨hnd1, ?_, ?_⟩
  · rw [hsecond, countName_map_replace]
    exact hcount1
  · rw [hsecond, hname]
    exact find_map_replace (add_record b r) r2 r.name hany

/-- C7 witness: adding two records named "alice" to the empty book leaves
one entry, holding the second record. -/
theorem add_record_overwrites_witness :
    countName (add_record (add_record [] ⟨"alice", ["1234567890"], none⟩)
        ⟨"alice", [], none⟩) "alice" = 1 ∧
    find (add_record (add_record [] ⟨"alice", ["1234567890"], none⟩)
        ⟨"alice", [], none⟩) "alice" = some ⟨"alice", [], none⟩ :=
  ⟨(add_record_overwrites [] ⟨"alice", ["1234567890"], none⟩ ⟨"alice", [], none⟩
      List.nodup_nil rfl).2.1,
   (add_record_overwrites [] ⟨"alice", ["1234567890"], none⟩ ⟨"alice", [], none⟩
      List.nodup_nil rfl).2.2⟩

/-! ### The key invariant (C9) -/

/-- The address-book operations named by the invariant claim.  `find` and
`get_upcoming_birthdays` return values without assigning to the mapping,
so they leave the book unchanged. -/
inductive BookOp where
  | addRecordOp (r : Record)
  | findOp (name : String)
  | deleteOp (name : String)
  | upcomingOp (today : Date) (days : Nat)

/-- Effect of one operation on the book state. -/
def applyOp (b : AddressBook) : BookOp → AddressBook
  | .addRecordOp r => add_record b r
  | .findOp _ => b
  | .deleteOp n => delete b n
  | .upcomingOp _ _ => b

/-- Run a sequence of operations from the empty book. -/
def runOps (ops : List BookOp) : AddressBook :=
  ops.foldl applyOp []

/-- Every stored record's name equals its key. -/
def keyInvariant (b : AddressBook) : Prop :=
  ∀ kv ∈ b, kv.2.name = kv.1

lemma keyInvariant_apply (b : AddressBook) (op : BookOp)
    (h : keyInvariant b) : keyInvariant (applyOp b op) := by
  cases op with
  | addRecordOp r =>
    show keyInvariant (add_record b r)
    unfold add_record
    split
    · intro kv hkv
      rw [List.mem_map] at hkv
      obtain ⟨kv0, hkv0, heq⟩ := hkv
      by_cases hk : kv0.1 = r.name
      · rw [if_pos (by simp [hk])] at heq
        rw [← heq]
        exact hk.symm
      · rw [if_neg (by simp [hk])] at heq
        rw [← heq]
        exact h kv0 hkv0
    · intro kv hkv
      rcases List.mem_append.mp hkv with h1 | h1
      · exact h kv h1
      · rw [List.mem_singleton] at h1
        rw [h1]
  | findOp n => exact h
  | deleteOp n =>
    show keyInvariant (delete b n)
    intro kv hkv
    exact h kv (List.mem_of_mem_filter hkv)
  | upcomingOp today days => exact h

/-- C9: starting from the empty book, any sequence of `addRecord`, `find`,
`delete` and `getUpcomingBirthdays` operations preserves the invariant
that every stored record's name equals its key. -/
theorem book_key_invariant (ops : List BookOp) : keyInvariant (runOps ops) := by
  suffices haux : ∀ (b : AddressBook), keyInvariant b →
      keyInvariant (ops.foldl applyOp b) from
    haux [] (fun kv hkv => absurd hkv (List.not_mem_nil kv))
  induction ops with
  | nil => intro b h; exact h
  | cons op t ih =>
    intro b h
    exact ih (applyOp b op) (keyInvariant_apply b op h)

/-! ### The upcoming-birthday query against the specification (C1) -/

/-- Specification of the occurrence date: this year’s month/day of the
birthday, advanced to next year when strictly before today. -/
def spec_occ (today bd : Date) : Date :=
  if dateLt ⟨today.year, bd.month, bd.day⟩ today
  then ⟨today.year + 1, bd.month, bd.day⟩
  else ⟨today.year, bd.month, bd.day⟩

/-- Specification of the query for one record, written from the
specification text: keep a record with a birthday set exactly when the day
count from today to the (unadjusted) occurrence lies in `[0, days]`; only
a kept date is shifted for display (+2 days from Saturday, +1 from Sunday)
and formatted `DD.MM.YYYY`. -/
def spec_entry (today : Date) (days : Nat) (r : Record) : Option (String × String) :=
  match r.birthday with
  | none => none
  | some bs =>
    if 0 ≤ dateDiff (spec_occ today (date_obj bs)) today ∧
        dateDiff (spec_occ today (date_obj bs)) today ≤ (days : Int) then
      some (r.name, strftime_ddmmyyyy (adjust_for_weekend (spec_occ today (date_obj bs))))
    else none

/-- The full specification list: one entry per kept record, in the
book’s insertion order. -/
def spec_upcoming (b : AddressBook) (today : Date) (days : Nat) :
    List (String × String) :=
  b.filterMap (fun kv => spec_entry today days kv.2)

/-- Decidable side condition for C1: every stored birthday parses and is
not February 29 (the one month/day whose year replacement can raise). -/
def feb29_free (b : AddressBook) : Bool :=
  b.all fun kv =>
    match kv.2.birthday with
    | none => true
    | some bs =>
      match strptime_dmY bs with
      | none => false
      | some d => !(d.month == 2 && d.day == 29)

lemma ok_bind {α β : Type} (a : α) (f : α → Except String β) :
    (Except.ok a >>= f : Except String β) = f a := rfl

lemma daysInMonth_indep (y1 y2 m d : Nat)
    (h : d ≤ daysInMonth y1 m) (hno : ¬(m = 2 ∧ d = 29)) :
    d ≤ daysInMonth y2 m := by
  unfold daysInMonth at h ⊢
  by_cases hm : m = 2
  · subst hm
    rw [if_pos rfl] at h ⊢
    have hd29 : d ≠ 29 := fun hd => hno ⟨rfl, hd⟩
    split at h <;> split <;> omega
  · rw [if_neg hm] at h ⊢
    exact h

lemma strptime_facts (s : String) (d : Date) (h : strptime_dmY s = some d) :
    d.day ≤ daysInMonth d.year d.month ∧ 1 ≤ d.year := by
  unfold strptime_dmY at h
  split at h
  · split at h
    · rename_i hif
      split at h
      · rename_i hcond
        injection h with h
        subst h
        exact ⟨hcond.2, hcond.1⟩
      · cases h
    · cases h
  · cases h

lemma dateReplaceYear_ok (d : Date) (y : Nat) (hy : 1 ≤ y) (hy2 : y ≤ 9999)
    (hday : d.day ≤ daysInMonth y d.month) :
    dateReplaceYear d y = .ok ⟨y, d.month, d.day⟩ := by
  unfold dateReplaceYear
  rw [if_neg (by omega), if_neg (by omega)]

lemma upcoming_entry_some (today : Date) (days : Nat) (r : Record) (bs : String)
    (hb2 : r.birthday = some bs) :
    upcoming_entry today days r = (do
      let bty ← dateReplaceYear (date_obj bs) today.year
      let occ ← if dateLt bty today then dateReplaceYear bty (today.year + 1)
                else .ok bty
      if 0 ≤ dateDiff occ today ∧ dateDiff occ today ≤ (days : Int) then
        .ok (some (r.name, strftime_ddmmyyyy (adjust_for_weekend occ)))
      else .ok none) := by
  unfold upcoming_entry
  rw [hb2]

lemma upcoming_entry_eq_spec (today : Date) (days : Nat) (r : Record)
    (hy1 : 1 ≤ today.year) (hy2 : today.year + 1 ≤ 9999)
    (hb : ∀ bs, r.birthday = some bs →
      ∃ d, strptime_dmY bs = some d ∧ ¬(d.month = 2 ∧ d.day = 29)) :
    upcoming_entry today days r = .ok (spec_entry today days r) := by
  cases hb2 : r.birthday with
  | none =>
    unfold upcoming_entry spec_entry
    rw [hb2]
  | some bs =>
    obtain ⟨bd, hparse, hno⟩ := hb bs hb2
    have hbd : date_obj bs = bd := by
      unfold date_obj
      rw [hparse]
      rfl
    obtain ⟨hday, -⟩ := strptime_facts bs bd hparse
    have h1 : dateReplaceYear bd today.year = .ok ⟨today.year, bd.month, bd.day⟩ :=
      dateReplaceYear_ok bd today.year hy1 (by omega)
        (daysInMonth_indep bd.year today.year bd.month bd.day hday hno)
    have h2 : dateReplaceYear ⟨today.year, bd.month, bd.day⟩ (today.year + 1)
        = .ok ⟨today.year + 1, bd.month, bd.day⟩ :=
      dateReplaceYear_ok ⟨today.year, bd.month, bd.day⟩ (today.year + 1)
        (by omega) hy2
        (daysInMonth_indep bd.year (today.year + 1) bd.month bd.day hday hno)
    have hspec : spec_entry today days r =
        (if 0 ≤ dateDiff (spec_occ today (date_obj bs)) today ∧
            dateDiff (spec_occ today (date_obj bs)) today ≤ (days : Int) then
          some (r.name, strftime_ddmmyyyy (adjust_for_weekend (spec_occ today (date_obj bs))))
        else none) := by
      unfold spec_entry
      rw [hb2]
    rw [hbd] at hspec
    rw [upcoming_entry_some today days r bs hb2, hspec, hbd, h1]
    rw [ok_bind]
    unfold spec_occ
    cases hlt : dateLt ⟨today.year, bd.month, bd.day⟩ today with
    | true =>
      rw [if_pos rfl, if_pos rfl, h2]
      simp only [ok_bind]
      split_ifs <;> rfl
    | false =>
      rw [if_neg Bool.false_ne_true, if_neg Bool.false_ne_true]
      simp only [ok_bind]
      split_ifs <;> rfl

/-- C1: whenever no stored birthday is a February 29 (the `feb29_free`
side condition; see C10 for what happens otherwise) and today’s year is a
representable Python year, `get_upcoming_birthdays` returns exactly the
list described by the specification: records with a birthday whose
occurrence (advanced to next year when strictly before today) lies within
`[0, days]` days of today, window-tested on the unadjusted date, then
weekend-shifted for display and formatted `DD.MM.YYYY`, in insertion
order. -/
theorem get_upcoming_birthdays_matches_spec (b : AddressBook) (today : Date)
    (days : Nat) (hfree : feb29_free b = true)
    (hy1 : 1 ≤ today.year) (hy2 : today.year + 1 ≤ 9999) :
    get_upcoming_birthdays b today days = .ok (spec_upcoming b today days) := by
  induction b with
  | nil => rfl
  | cons kv t ih =>
    rw [feb29_free, List.all_cons, Bool.and_eq_true] at hfree
    obtain ⟨hhead, htail⟩ := hfree
    have hb : ∀ bs, kv.2.birthday = some bs →
        ∃ d, strptime_dmY bs = some d ∧ ¬(d.month = 2 ∧ d.day = 29) := by
      intro bs hbs
      rw [hbs] at hhead
      have hhead2 : (match strptime_dmY bs with
          | none => false
          | some d => !(d.month == 2 && d.day == 29)) = true := hhead
      cases hp : strptime_dmY bs with
      | none => rw [hp] at hhead2; cases hhead2
      | some d =>
        rw [hp] at hhead2
        have hhead3 : (!(d.month == 2 && d.day == 29)) = true := hhead2
        refine ⟨d, rfl, ?_⟩
        intro ⟨hm, hd⟩
        rw [hm, hd] at hhead3
        exact absurd hhead3 (by decide)
    have hrec := upcoming_entry_eq_spec today days kv.2 hy1 hy2 hb
    show (upcoming_entry today days kv.2 >>= _) = _
    rw [hrec, ok_bind, ih htail]
    show (Except.ok (spec_upcoming t today days) >>= _) = _
    rw [ok_bind]
    unfold spec_upcoming
    rw [List.filterMap_cons]
    cases hse : spec_entry today days kv.2 <;> rfl

/-- C1 witness: the specification scenario — today is Friday 2024-06-07
and alice’s birthday "09.06.2020" falls on Sunday 2024-06-09, inside the
7-day window; the reported date is shifted to Monday "10.06.2024". -/
theorem get_upcoming_birthdays_matches_spec_witness :
    get_upcoming_birthdays [("alice", ⟨"alice", [], some "09.06.2020"⟩)]
        ⟨2024, 6, 7⟩ 7
      = .ok (spec_upcoming [("alice", ⟨"alice", [], some "09.06.2020"⟩)]
          ⟨2024, 6, 7⟩ 7) ∧
    spec_upcoming [("alice", ⟨"alice", [], some "09.06.2020"⟩)] ⟨2024, 6, 7⟩ 7
      = [("alice", "10.06.2024")] :=
  ⟨get_upcoming_birthdays_matches_spec
      [("alice", ⟨"alice", [], some "09.06.2020"⟩)] ⟨2024, 6, 7⟩ 7
      (by decide) (by decide) (by decide),
   by rfl⟩

/-! ### The birthday format language (C2) -/

/-- C9 witness: the invariant holds after a concrete run. -/
theorem book_key_invariant_witness :
    keyInvariant (runOps [BookOp.addRecordOp ⟨"alice", [], none⟩,
      BookOp.addRecordOp ⟨"bob", ["1234567890"], none⟩,
      BookOp.deleteOp "alice", BookOp.findOp "bob",
      BookOp.upcomingOp ⟨2024, 6, 7⟩ 7]) :=
  book_key_invariant [BookOp.addRecordOp ⟨"alice", [], none⟩,
    BookOp.addRecordOp ⟨"bob", ["1234567890"], none⟩,
    BookOp.deleteOp "alice", BookOp.findOp "bob",
    BookOp.upcomingOp ⟨2024, 6, 7⟩ 7]

end ContactBook
